import Mathlib

/-!
Verification of the data-plane transport and framing subsystem of the
DecisionFramework_HE_HHE repository, shallowly embedded from
src/Data_Manager/data_manager.cpp.

Bytes are modelled as natural numbers (< 256 where it matters), byte
streams and file contents as lists of bytes, and the fallible C++
functions as Lean functions returning Except or an explicit result type.
-/

/-- 1 GiB sanity cap on frame lengths (data_manager.cpp line 40, 1u << 30). -/
def MAX_REASONABLE_SIZE : Nat := 2 ^ 30

/-- Big-endian 4-byte encoding of a 32-bit length, as produced by htonl
followed by writing the 4 bytes of the uint32 in memory order. -/
def encodeBE32 (n : Nat) : List Nat :=
  [n / 16777216 % 256, n / 65536 % 256, n / 256 % 256, n % 256]

/-- Big-endian decoding of 4 bytes into a 32-bit length, as done by
reading 4 bytes into a uint32 and applying ntohl. -/
def decodeBE32 (b0 b1 b2 b3 : Nat) : Nat :=
  b0 * 16777216 + b1 * 65536 + b2 * 256 + b3

/-- Outcome of one frame-read operation: a payload together with the rest
of the stream (the C++ functions return true and fill the out vector),
a clean end of file (return false), or a thrown runtime error. -/
inductive ReadResult where
  | frame (payload : List Nat) (rest : List Nat)
  | endOfFile
  | corrupted (msg : String)
deriving DecidableEq

def ReadResult.isCorrupted : ReadResult → Bool
  | .corrupted _ => true
  | _ => false

/-- write_length_prefixed_bytes_to_ofstream (data_manager.cpp 44-54):
casts the size to uint32 (modulo 2^32) and throws when the cast changed
the value; then writes the big-endian length and the payload. The
sink_ok flag models whether the ofstream accepts the writes; on a
rejected write the function throws. On success the bytes appended to
the sink are the 4-byte length followed by the payload. -/
def write_length_prefixed_bytes_to_ofstream (sink_ok : Bool) (data : List Nat) :
    Except String (List Nat) :=
  if data.length % 4294967296 ≠ data.length then
    .error "payload too large for uint32_t length prefix"
  else if sink_ok = false then
    .error "write_length_prefixed_bytes: failed to write length"
  else
    .ok (encodeBE32 (data.length % 4294967296) ++ data)

/-- write_length_prefixed_bytes_to_FILE (data_manager.cpp 76-84): same
framing as the ofstream variant, with fwrite as the sink. -/
def write_length_prefixed_bytes_to_FILE (sink_ok : Bool) (data : List Nat) :
    Except String (List Nat) :=
  if data.length % 4294967296 ≠ data.length then
    .error "payload too large for uint32_t length prefix"
  else if sink_ok = false then
    .error "write_length_prefixed_bytes_to_FILE: write length failed"
  else
    .ok (encodeBE32 (data.length % 4294967296) ++ data)

/-- read_length_prefixed_bytes_from_ifstream (data_manager.cpp 57-73).
ifs.read of the 4 length bytes sets both failbit and eofbit when the
stream holds fewer than 4 bytes, and the function then returns false
(clean end) because ifs.eof() is true; this covers the empty stream and
streams of 1-3 bytes alike. With a full prefix, a decoded length above
the sanity cap throws, a payload shorter than declared throws, and
otherwise the payload and the remaining stream are returned. -/
def read_length_prefixed_bytes_from_ifstream (s : List Nat) : ReadResult :=
  match s with
  | b0 :: b1 :: b2 :: b3 :: rest =>
    let len := decodeBE32 b0 b1 b2 b3
    if len > MAX_REASONABLE_SIZE then
      .corrupted "read_length_prefixed_bytes: suspicious length"
    else if rest.length < len then
      .corrupted "read_length_prefixed_bytes: failed to read payload"
    else
      .frame (rest.take len) (rest.drop len)
  | _ => .endOfFile

/-- read_length_prefixed_bytes_from_FILE (data_manager.cpp 87-100).
fread returning 0 bytes is a clean end; 1-3 bytes is an incomplete
length header and throws; with a full prefix the behaviour matches the
ifstream variant (cap check before any payload read, truncated payload
throws). -/
def read_length_prefixed_bytes_from_FILE (s : List Nat) : ReadResult :=
  match s with
  | [] => .endOfFile
  | b0 :: b1 :: b2 :: b3 :: rest =>
    let len := decodeBE32 b0 b1 b2 b3
    if len > MAX_REASONABLE_SIZE then
      .corrupted "suspicious length"
    else if rest.length < len then
      .corrupted "corrupted file (payload truncated)"
    else
      .frame (rest.take len) (rest.drop len)
  | _ => .corrupted "corrupted file (incomplete length header)"

lemma decodeBE32_encodeBE32 (n : Nat) (h : n < 4294967296) :
    decodeBE32 (n / 16777216 % 256) (n / 65536 % 256) (n / 256 % 256) (n % 256) = n := by
  unfold decodeBE32
  omega

/-- Claim C1: for every byte sequence b with |b| ≤ 2^30, writing b as a
frame (4-byte big-endian length prefix followed by the payload) to an
empty sink and then reading one frame back returns exactly b, and a
subsequent read reports a clean end, on both the ofstream/ifstream and
the FILE read/write paths. -/
theorem frame_round_trip (b : List Nat) (hlen : b.length ≤ 2 ^ 30)
    (_hbytes : ∀ x ∈ b, x < 256) :
    write_length_prefixed_bytes_to_ofstream true b = .ok (encodeBE32 b.length ++ b) ∧
    write_length_prefixed_bytes_to_FILE true b = .ok (encodeBE32 b.length ++ b) ∧
    read_length_prefixed_bytes_from_ifstream (encodeBE32 b.length ++ b) = .frame b [] ∧
    read_length_prefixed_bytes_from_FILE (encodeBE32 b.length ++ b) = .frame b [] ∧
    read_length_prefixed_bytes_from_ifstream ([] : List Nat) = .endOfFile ∧
    read_length_prefixed_bytes_from_FILE ([] : List Nat) = .endOfFile := by
  have hlt : b.length < 4294967296 := by
    have : (2 : Nat) ^ 30 < 4294967296 := by norm_num
    omega
  have hmod : b.length % 4294967296 = b.length := Nat.mod_eq_of_lt hlt
  have hcap : ¬ (b.length > MAX_REASONABLE_SIZE) := by
    simp only [MAX_REASONABLE_SIZE]
    omega
  refine ⟨?_, ?_, ?_, ?_, rfl, rfl⟩
  · simp [write_length_prefixed_bytes_to_ofstream, hmod]
  · simp [write_length_prefixed_bytes_to_FILE, hmod]
  · simp only [encodeBE32, List.cons_append, List.nil_append,
      read_length_prefixed_bytes_from_ifstream]
    rw [decodeBE32_encodeBE32 b.length hlt]
    simp [hcap, List.take_length, List.drop_length]
  · simp only [encodeBE32, List.cons_append, List.nil_append,
      read_length_prefixed_bytes_from_FILE]
    rw [decodeBE32_encodeBE32 b.length hlt]
    simp [hcap, List.take_length, List.drop_length]

/-- Witness for C1 at the concrete payload [171, 205]. -/
theorem frame_round_trip_witness :
    write_length_prefixed_bytes_to_ofstream true [171, 205] =
      .ok (encodeBE32 2 ++ [171, 205]) ∧
    read_length_prefixed_bytes_from_ifstream (encodeBE32 2 ++ [171, 205]) =
      .frame [171, 205] [] ∧
    read_length_prefixed_bytes_from_FILE (encodeBE32 2 ++ [171, 205]) =
      .frame [171, 205] [] := by
  have h := frame_round_trip [171, 205] (by norm_num) (by decide)
  exact ⟨h.1, h.2.2.1, h.2.2.2.1⟩

/-- Claim C2 counterexample: a source consisting of a single length byte
is a frame truncated inside the 4-byte length prefix, yet the
ifstream-based reader reports a silent clean end rather than a
CorruptedFrame error, because ifs.read of the length sets eofbit and the
function returns false. This falsifies the claim that every frame reader
reports CorruptedFrame at every such truncation point. -/
theorem ifstream_truncated_header_silent_end :
    read_length_prefixed_bytes_from_ifstream [0] = .endOfFile ∧
    (read_length_prefixed_bytes_from_ifstream [0]).isCorrupted = false := by
  exact ⟨rfl, rfl⟩

/-- Claim C2 as amended: on a source that ends with 1-3 length bytes, the
FILE-based reader reports a corruption error while the ifstream-based
reader reports a silent clean end; on a source with a complete length
prefix (decoding within the sanity cap) but fewer payload bytes than the
prefix declares, both readers report a corruption error. -/
theorem read_truncated_frame (s : List Nat) :
    (1 ≤ s.length → s.length ≤ 3 →
      (read_length_prefixed_bytes_from_FILE s).isCorrupted = true ∧
      read_length_prefixed_bytes_from_ifstream s = .endOfFile) ∧
    (∀ a b c d t, s = a :: b :: c :: d :: t →
      decodeBE32 a b c d ≤ MAX_REASONABLE_SIZE →
      t.length < decodeBE32 a b c d →
      (read_length_prefixed_bytes_from_FILE s).isCorrupted = true ∧
      (read_length_prefixed_bytes_from_ifstream s).isCorrupted = true) := by
  constructor
  · intro h1 h3
    match s with
    | [] => simp at h1
    | [a] => exact ⟨rfl, rfl⟩
    | [a, b] => exact ⟨rfl, rfl⟩
    | [a, b, c] => exact ⟨rfl, rfl⟩
    | a :: b :: c :: d :: t => simp at h3
  · intro a b c d t hs hcap htrunc
    subst hs
    have hnotbig : ¬ (decodeBE32 a b c d > MAX_REASONABLE_SIZE) := by omega
    constructor
    · simp only [read_length_prefixed_bytes_from_FILE]
      rw [if_neg hnotbig, if_pos htrunc]
      rfl
    · simp only [read_length_prefixed_bytes_from_ifstream]
      rw [if_neg hnotbig, if_pos htrunc]
      rfl

/-- Witness for the amended C2 at the concrete sources [0] (one length
byte) and [0, 0, 0, 1] (complete prefix declaring 1 payload byte, no
payload present). -/
theorem read_truncated_frame_witness :
    ((read_length_prefixed_bytes_from_FILE [0]).isCorrupted = true ∧
      read_length_prefixed_bytes_from_ifstream [0] = .endOfFile) ∧
    ((read_length_prefixed_bytes_from_FILE [0, 0, 0, 1]).isCorrupted = true ∧
      (read_length_prefixed_bytes_from_ifstream [0, 0, 0, 1]).isCorrupted = true) := by
  exact ⟨(read_truncated_frame [0]).1 (by decide) (by decide),
         (read_truncated_frame [0, 0, 0, 1]).2 0 0 0 1 [] rfl (by decide) (by decide)⟩

lemma write_ofstream_ok (data : List Nat) (h : data.length < 4294967296) :
    write_length_prefixed_bytes_to_ofstream true data =
      .ok (encodeBE32 data.length ++ data) := by
  have hmod : data.length % 4294967296 = data.length := Nat.mod_eq_of_lt h
  unfold write_length_prefixed_bytes_to_ofstream
  rw [if_neg (fun hne => hne hmod), if_neg (show ¬ (true = false) by decide), hmod]

lemma write_FILE_ok (data : List Nat) (h : data.length < 4294967296) :
    write_length_prefixed_bytes_to_FILE true data =
      .ok (encodeBE32 data.length ++ data) := by
  have hmod : data.length % 4294967296 = data.length := Nat.mod_eq_of_lt h
  unfold write_length_prefixed_bytes_to_FILE
  rw [if_neg (fun hne => hne hmod), if_neg (show ¬ (true = false) by decide), hmod]

lemma write_mod_ne_of_large (data : List Nat) (h : 4294967296 ≤ data.length) :
    data.length % 4294967296 ≠ data.length := by
  have := Nat.mod_lt data.length (show 0 < 4294967296 by norm_num)
  omega

/-- Claim C4 counterexample: a payload of 2^30 + 1 bytes is strictly
larger than 2^30 yet both frame write paths succeed, because the only
write-time guard rejects sizes that do not fit in a uint32 (≥ 2^32); the
2^30 cap is enforced only at read time. -/
theorem write_large_payload_succeeds :
    write_length_prefixed_bytes_to_ofstream true (List.replicate (2 ^ 30 + 1) 0) =
      .ok (encodeBE32 (2 ^ 30 + 1) ++ List.replicate (2 ^ 30 + 1) 0) ∧
    write_length_prefixed_bytes_to_FILE true (List.replicate (2 ^ 30 + 1) 0) =
      .ok (encodeBE32 (2 ^ 30 + 1) ++ List.replicate (2 ^ 30 + 1) 0) := by
  have hlen : (List.replicate (2 ^ 30 + 1) (0 : Nat)).length = 2 ^ 30 + 1 :=
    List.length_replicate _ _
  have hsmall : (List.replicate (2 ^ 30 + 1) (0 : Nat)).length < 4294967296 := by
    rw [hlen]; norm_num
  have h1 := write_ofstream_ok (List.replicate (2 ^ 30 + 1) 0) hsmall
  have h2 := write_FILE_ok (List.replicate (2 ^ 30 + 1) 0) hsmall
  rw [hlen] at h1 h2
  exact ⟨h1, h2⟩

/-- Claim C4 as amended: the frame write operation fails exactly when the
payload size does not fit in the uint32 length prefix (size ≥ 2^32);
any payload below 2^32 bytes, including those above 2^30, is written
successfully by both write paths (the 2^30 sanity cap is a read-side
check only). -/
theorem write_frame_size_guard (data : List Nat) :
    (data.length < 4294967296 →
      write_length_prefixed_bytes_to_ofstream true data =
        .ok (encodeBE32 data.length ++ data) ∧
      write_length_prefixed_bytes_to_FILE true data =
        .ok (encodeBE32 data.length ++ data)) ∧
    (4294967296 ≤ data.length →
      write_length_prefixed_bytes_to_ofstream true data =
        .error "payload too large for uint32_t length prefix" ∧
      write_length_prefixed_bytes_to_FILE true data =
        .error "payload too large for uint32_t length prefix") := by
  constructor
  · intro h
    exact ⟨write_ofstream_ok data h, write_FILE_ok data h⟩
  · intro h
    have hne := write_mod_ne_of_large data h
    constructor
    · unfold write_length_prefixed_bytes_to_ofstream
      rw [if_pos hne]
    · unfold write_length_prefixed_bytes_to_FILE
      rw [if_pos hne]

/-- Witness for the amended C4: a 3-byte payload is written successfully,
and a payload of exactly 2^32 zero bytes is rejected by both paths. -/
theorem write_frame_size_guard_witness :
    (write_length_prefixed_bytes_to_ofstream true [1, 2, 3] =
      .ok (encodeBE32 ([1, 2, 3] : List Nat).length ++ [1, 2, 3])) ∧
    (write_length_prefixed_bytes_to_FILE true (List.replicate (2 ^ 32) 0) =
      .error "payload too large for uint32_t length prefix") := by
  refine ⟨((write_frame_size_guard [1, 2, 3]).1 (by norm_num)).1, ?_⟩
  exact ((write_frame_size_guard (List.replicate (2 ^ 32) 0)).2
    (by rw [List.length_replicate]; norm_num)).2

/-- Claim C8: whenever the decoded 4-byte big-endian length prefix
exceeds the 2^30 sanity cap, both frame read paths report a corruption
error; the statement holds for every remaining stream t, in particular
for streams far shorter than the declared length, showing the reader
rejects the length before consuming or allocating the declared payload. -/
theorem read_suspicious_length (a b c d : Nat) (t : List Nat)
    (h : decodeBE32 a b c d > MAX_REASONABLE_SIZE) :
    read_length_prefixed_bytes_from_ifstream (a :: b :: c :: d :: t) =
      .corrupted "read_length_prefixed_bytes: suspicious length" ∧
    read_length_prefixed_bytes_from_FILE (a :: b :: c :: d :: t) =
      .corrupted "suspicious length" := by
  constructor
  · simp only [read_length_prefixed_bytes_from_ifstream]
    rw [if_pos h]
  · simp only [read_length_prefixed_bytes_from_FILE]
    rw [if_pos h]

/-- Witness for C8 at the all-ones prefix (declared length 2^32 - 1)
with an empty remaining stream. -/
theorem read_suspicious_length_witness :
    read_length_prefixed_bytes_from_ifstream [255, 255, 255, 255] =
      .corrupted "read_length_prefixed_bytes: suspicious length" ∧
    read_length_prefixed_bytes_from_FILE [255, 255, 255, 255] =
      .corrupted "suspicious length" := by
  exact read_suspicious_length 255 255 255 255 [] (by decide)

/-- Model of the filesystem view a reader constructor sees: none when the
file does not exist, otherwise the file contents as a byte list. -/
def FileContents : Type := Option (List Nat)

/-- FileVectorReader constructor (data_manager.cpp 151-164): the Impl
constructor opens an ifstream on the path and throws
"FileVectorReader: cannot open file: " + path when it is not open, which
is the case when the file does not exist. On success the reader state is
the stream positioned at the file start. -/
def FileVectorReader_construct (path : String) (file : Option (List Nat)) :
    Except String (List Nat) :=
  match file with
  | none => .error ("FileVectorReader: cannot open file: " ++ path)
  | some content => .ok content

/-- FileVectorReader::next (data_manager.cpp 176-179): reads one
length-prefixed record from the reader stream. -/
def FileVectorReader_next (s : List Nat) : ReadResult :=
  read_length_prefixed_bytes_from_ifstream s

/-- Result of FileTFHEVectorReader::next: a record was read (got), the
file reported a clean end (ended), or an exception was thrown (err). -/
inductive TfheNextResult where
  | got (buf : List Nat)
  | ended
  | err (msg : String)
deriving DecidableEq

/-- FileTFHEVectorReader constructor (data_manager.cpp 321-328): fopen
on a missing file yields a null FILE pointer and the constructor
completes normally with that null state; it never throws. The state is
modelled as none for a null FILE pointer, otherwise the stream. -/
def FileTFHEVectorReader_construct (file : Option (List Nat)) : Option (List Nat) :=
  file

/-- FileTFHEVectorReader::next (data_manager.cpp 336-345): returns false
immediately when the FILE pointer is null; otherwise reads one
length-prefixed record and hands it to the TFHE deserializer, throwing
when deserialization fails. The deserializer lives in the external TFHE
library and is abstracted as the predicate deser_ok on the record bytes.
The result is paired with the reader state after the call. -/
def FileTFHEVectorReader_next (deser_ok : List Nat → Bool) (f : Option (List Nat)) :
    TfheNextResult × Option (List Nat) :=
  match f with
  | none => (.ended, none)
  | some s =>
    match read_length_prefixed_bytes_from_FILE s with
    | .endOfFile => (.ended, some s)
    | .corrupted m => (.err m, some s)
    | .frame buf rest =>
      if deser_ok buf then (.got buf, some rest)
      else (.err "TFHE deserialization failed", some rest)

/-- Claim C3 counterexample: constructing a FileVectorReader on a path
whose file does not exist does not succeed - the constructor throws -
falsifying the claim that both spool reader constructors succeed on a
missing file. -/
theorem FileVectorReader_missing_file_throws :
    FileVectorReader_construct "missing.bin" none =
      .error "FileVectorReader: cannot open file: missing.bin" := by
  rfl

/-- Claim C3 as amended: only FileTFHEVectorReader tolerates a missing
file - its constructor completes with a null-file state, and every
subsequent next() on that state reports end immediately and leaves the
state unchanged (so all later next() calls also report end);
FileVectorReader's constructor instead throws on a missing file. -/
theorem FileTFHEVectorReader_missing_file_empty (deser_ok : List Nat → Bool) :
    FileTFHEVectorReader_construct none = none ∧
    FileTFHEVectorReader_next deser_ok none = (.ended, none) := by
  exact ⟨rfl, rfl⟩

/-- Outcome of a call to one of the void functions that wrap their body
in try/catch: what the caller observes (caller_error, always none when
every exception is caught), what was printed to stderr, and the bytes
that actually reached the sink. -/
structure CallOutcome where
  caller_error : Option String
  stderr : List String
  appended : List Nat
deriving DecidableEq

/-- append_vector_to_file (data_manager.cpp 103-120): takes the per-path
lock, creates parent directories, opens the file for append (throwing a
system_error when that fails), writes one length-prefixed frame, and
flushes - all inside a try/catch whose handler prints the error to
stderr and falls off the end of the void function. open_ok models
whether the ofstream opens; sink_ok models whether the stream accepts
the writes. -/
def append_vector_to_file (open_ok sink_ok : Bool) (data : List Nat) : CallOutcome :=
  match (if open_ok = false then .error "append_vector_to_file: cannot open file"
         else write_length_prefixed_bytes_to_ofstream sink_ok data :
         Except String (List Nat)) with
  | .ok frame => { caller_error := none, stderr := [], appended := frame }
  | .error e =>
    { caller_error := none
      stderr := ["Error in Funktion append_vector_to_file: " ++ e]
      appended := [] }

/-- Outcome of ZmqPushManager::send_to_endpoint: caller observation,
stderr output, and the messages actually handed to the socket. -/
structure SendOutcome where
  caller_error : Option String
  stderr : List String
  sent : List (List Nat)
deriving DecidableEq

/-- ZmqPushManager::send_to_endpoint (data_manager.cpp 210-232): lazily
creates and binds the push socket (zmq throws on a bind failure), sends
the buffer, and throws when the send reports no value - all inside a
try/catch whose handler prints to stderr and returns normally. bind_ok
models socket creation and bind; send_ok models the send result. -/
def ZmqPushManager_send_to_endpoint (bind_ok send_ok : Bool) (data : List Nat) :
    SendOutcome :=
  match (if bind_ok = false then .error "bind failed"
         else if send_ok = false then
           .error "ZmqPushManager::send_to_endpoint: send failed"
         else .ok [data] : Except String (List (List Nat))) with
  | .ok msgs => { caller_error := none, stderr := [], sent := msgs }
  | .error e =>
    { caller_error := none
      stderr := ["Error in Funktion ZmqPushManager::send_to_endpoint: " ++ e]
      sent := [] }

/-- Claim C5 counterexample: with a sink that rejects the write,
append_vector_to_file returns normally (no error reaches the caller)
and the data is silently lost from the caller's point of view; the same
holds for a failing queue send. This falsifies the claim that such
failures are surfaced to the caller. -/
theorem append_and_send_failure_not_surfaced :
    (append_vector_to_file true false [1, 2, 3]).caller_error = none ∧
    (append_vector_to_file true false [1, 2, 3]).appended = [] ∧
    (ZmqPushManager_send_to_endpoint true false [1, 2, 3]).caller_error = none ∧
    (ZmqPushManager_send_to_endpoint true false [1, 2, 3]).sent = [] := by
  exact ⟨rfl, rfl, rfl, rfl⟩

/-- Claim C5 as amended: append_vector_to_file and
ZmqPushManager::send_to_endpoint never surface an error to the caller -
each catches every exception internally; when opening or writing fails
(respectively binding or sending), the error is only printed to stderr,
the function returns normally, and the data does not reach the file
(respectively the socket). -/
theorem append_and_send_swallow_errors (open_ok sink_ok bind_ok send_ok : Bool)
    (data : List Nat) :
    (append_vector_to_file open_ok sink_ok data).caller_error = none ∧
    (ZmqPushManager_send_to_endpoint bind_ok send_ok data).caller_error = none ∧
    (open_ok = false ∨ sink_ok = false →
      (append_vector_to_file open_ok sink_ok data).appended = [] ∧
      (append_vector_to_file open_ok sink_ok data).stderr ≠ []) ∧
    (bind_ok = false ∨ send_ok = false →
      (ZmqPushManager_send_to_endpoint bind_ok send_ok data).sent = [] ∧
      (ZmqPushManager_send_to_endpoint bind_ok send_ok data).stderr ≠ []) := by
  have hw : ∀ d : List Nat,
      ∃ e, write_length_prefixed_bytes_to_ofstream false d = .error e := by
    intro d
    unfold write_length_prefixed_bytes_to_ofstream
    split
    · exact ⟨_, rfl⟩
    · rw [if_pos rfl]
      exact ⟨_, rfl⟩
  refine ⟨?_, ?_, ?_, ?_⟩
  · unfold append_vector_to_file
    cases open_ok
    · rfl
    · rw [if_neg (show ¬ (true = false) by decide)]
      cases hww : write_length_prefixed_bytes_to_ofstream sink_ok data
      · rfl
      · rfl
  · unfold ZmqPushManager_send_to_endpoint
    cases bind_ok <;> cases send_ok <;> rfl
  · intro h
    unfold append_vector_to_file
    rcases h with h | h
    · subst h
      exact ⟨rfl, by simp⟩
    · subst h
      cases open_ok
      · exact ⟨rfl, by simp⟩
      · rw [if_neg (show ¬ (true = false) by decide)]
        rcases hw data with ⟨e, he⟩
        rw [he]
        exact ⟨rfl, by simp⟩
  · intro h
    unfold ZmqPushManager_send_to_endpoint
    rcases h with h | h
    · subst h
      exact ⟨rfl, by simp⟩
    · subst h
      cases bind_ok
      · exact ⟨rfl, by simp⟩
      · exact ⟨rfl, by simp⟩

/-- Witness for the amended C5 with a failing sink and a failing send. -/
theorem append_and_send_swallow_errors_witness :
    (append_vector_to_file true false [5]).caller_error = none ∧
    (ZmqPushManager_send_to_endpoint true false [5]).caller_error = none ∧
    ((append_vector_to_file true false [5]).appended = [] ∧
      (append_vector_to_file true false [5]).stderr ≠ []) ∧
    ((ZmqPushManager_send_to_endpoint true false [5]).sent = [] ∧
      (ZmqPushManager_send_to_endpoint true false [5]).stderr ≠ []) := by
  have h := append_and_send_swallow_errors true false true false [5]
  exact ⟨h.1, h.2.1, h.2.2.1 (Or.inr rfl), h.2.2.2 (Or.inr rfl)⟩

/-- Check sz >= 1 && data[0] == 0xFE on a queue message (the SOF marker
test in zmq_receive_and_store, data_manager.cpp 426). -/
def isSOF (m : List Nat) : Bool :=
  match m with
  | b :: _ => b == 254
  | [] => false

/-- Check sz >= 1 && data[0] == 0xFF on a queue message (the EOF marker
test in zmq_receive_and_store, data_manager.cpp 430). -/
def isEOF (m : List Nat) : Bool :=
  match m with
  | b :: _ => b == 255
  | [] => false

/-- The receive loop of zmq_receive_and_store (data_manager.cpp 417-444)
over a finite incoming message stream. The loop condition
(max_messages == 0 || received < max_messages) is checked before each
receive; a message whose first byte is 0xFE is skipped; when
expect_eof_frame is set, a message whose first byte is 0xFF ends the
loop; every other message is framed into the spool and counted. The
result is the pair (received, persisted payloads in order). The [] case
models the stream being exhausted with the loop still waiting. -/
def zmq_loop (max_messages : Nat) (expect_eof_frame : Bool) :
    List (List Nat) → Nat → List (List Nat) → Nat × List (List Nat)
  | [], received, spool => (received, spool)
  | m :: rest, received, spool =>
    if max_messages ≠ 0 ∧ max_messages ≤ received then (received, spool)
    else if isSOF m then zmq_loop max_messages expect_eof_frame rest received spool
    else if expect_eof_frame && isEOF m then (received, spool)
    else zmq_loop max_messages expect_eof_frame rest (received + 1) (spool ++ [m])

/-- zmq_receive_and_store (data_manager.cpp 406-447): connects a pull
socket and runs the receive loop starting from zero received messages
and an empty spool. -/
def zmq_receive_and_store (max_messages : Nat) (expect_eof_frame : Bool)
    (msgs : List (List Nat)) : Nat × List (List Nat) :=
  zmq_loop max_messages expect_eof_frame msgs 0 []

lemma zmq_loop_data_run (max_messages : Nat) (expect_eof_frame : Bool) :
    ∀ (pre rest : List (List Nat)) (received : Nat) (spool : List (List Nat)),
    (∀ m ∈ pre, isSOF m = false ∧ isEOF m = false) →
    received + pre.length < max_messages →
    zmq_loop max_messages expect_eof_frame (pre ++ rest) received spool =
      zmq_loop max_messages expect_eof_frame rest (received + pre.length) (spool ++ pre) := by
  intro pre
  induction pre with
  | nil =>
    intro rest received spool _ _
    simp
  | cons m pre ih =>
    intro rest received spool hdata hcount
    have hm := hdata m (by simp)
    have hcond : ¬ (max_messages ≠ 0 ∧ max_messages ≤ received) := by
      simp only [List.length_cons] at hcount
      omega
    rw [List.cons_append, zmq_loop, if_neg hcond, if_neg (by rw [hm.1]; simp),
      if_neg (by rw [hm.2]; simp)]
    have := ih rest (received + 1) (spool ++ [m])
      (fun x hx => hdata x (by simp [hx]))
      (by simp only [List.length_cons] at hcount; omega)
    rw [this, List.append_assoc]
    simp only [List.singleton_append, List.length_cons]
    ring_nf

/-- Claim C6: when expect_eof_frame is set and the EOF control frame
arrives as the k-th message with k ≤ max_messages = n (the first k-1
messages being data frames), zmq_receive_and_store stops receiving at
the EOF frame, returns k-1 as the count of persisted frames, persists
exactly those k-1 data payloads, and does not persist the EOF frame or
consume anything after it. Here k = pre.length + 1. -/
theorem zmq_eof_early_stop (pre suffix : List (List Nat)) (eofm : List Nat) (n : Nat)
    (hdata : ∀ m ∈ pre, isSOF m = false ∧ isEOF m = false)
    (heof : isSOF eofm = false ∧ isEOF eofm = true)
    (hk : pre.length + 1 ≤ n) :
    zmq_receive_and_store n true (pre ++ eofm :: suffix) = (pre.length, pre) := by
  unfold zmq_receive_and_store
  rw [zmq_loop_data_run n true pre (eofm :: suffix) 0 [] hdata (by omega)]
  rw [zmq_loop, if_neg (by omega), if_neg (by rw [heof.1]; simp),
    if_pos (by rw [heof.2]; rfl)]
  simp

/-- Witness for C6 with two data messages followed by the EOF control
frame [255] and a trailing message, with n = 5. -/
theorem zmq_eof_early_stop_witness :
    zmq_receive_and_store 5 true [[7, 8], [9], [255], [10]] = (2, [[7, 8], [9]]) := by
  have h := zmq_eof_early_stop [[7, 8], [9]] [[10]] [255] 5
    (by decide) (by decide) (by decide)
  simpa using h

lemma zmq_loop_exit (max_messages : Nat) (expect_eof_frame : Bool)
    (msgs : List (List Nat)) (received : Nat) (spool : List (List Nat))
    (h : max_messages ≠ 0 ∧ max_messages ≤ received) :
    zmq_loop max_messages expect_eof_frame msgs received spool = (received, spool) := by
  cases msgs with
  | nil => rfl
  | cons m rest => rw [zmq_loop, if_pos h]

/-- Claim C7: SOF control frames (first byte 0xFE) interleaved anywhere
in the incoming stream of zmq_receive_and_store are transparent: the
receive returns exactly the same persisted spool and the same count as
it would on the stream with all SOF frames removed - so SOF frames are
never persisted, never counted, and never terminate reception. -/
theorem zmq_sof_transparent (max_messages : Nat) (expect_eof_frame : Bool)
    (msgs : List (List Nat)) :
    zmq_receive_and_store max_messages expect_eof_frame msgs =
      zmq_receive_and_store max_messages expect_eof_frame
        (msgs.filter (fun m => !isSOF m)) := by
  suffices h : ∀ (ms : List (List Nat)) (received : Nat) (spool : List (List Nat)),
      zmq_loop max_messages expect_eof_frame ms received spool =
        zmq_loop max_messages expect_eof_frame (ms.filter (fun m => !isSOF m))
          received spool by
    exact h msgs 0 []
  intro ms
  induction ms with
  | nil =>
    intro received spool
    rfl
  | cons m rest ih =>
    intro received spool
    by_cases hstop : max_messages ≠ 0 ∧ max_messages ≤ received
    · rw [zmq_loop, if_pos hstop, zmq_loop_exit _ _ _ _ _ hstop]
    · by_cases hsof : isSOF m
      · rw [zmq_loop, if_neg hstop, if_pos hsof, List.filter_cons_of_neg (by simp [hsof])]
        exact ih received spool
      · rw [zmq_loop, if_neg hstop, if_neg hsof, List.filter_cons_of_pos (by simp [hsof])]
        by_cases heof : expect_eof_frame && isEOF m
        · rw [if_pos heof, zmq_loop, if_neg hstop, if_neg hsof, if_pos heof]
        · rw [if_neg heof, zmq_loop, if_neg hstop, if_neg hsof, if_neg heof]
          exact ih (received + 1) (spool ++ [m])

/-- Claim C10: the receive loop classifies every incoming message by its
first byte alone, regardless of message length: at any loop state that
has not yet reached the message bound, a message 254 :: t (first byte
0xFE, any tail) is dropped without being persisted, counted, or ending
the loop, and - with expect_eof_frame set - a message 255 :: t (first
byte 0xFF, any tail) terminates reception on the spot. In particular a
multi-byte data payload beginning with 0xFE is silently lost and one
beginning with 0xFF ends the stream. -/
theorem zmq_first_byte_classification (max_messages received : Nat)
    (expect_eof_frame : Bool) (spool : List (List Nat)) (rest : List (List Nat))
    (t : List Nat) (h : ¬ (max_messages ≠ 0 ∧ max_messages ≤ received)) :
    zmq_loop max_messages expect_eof_frame ((254 :: t) :: rest) received spool =
      zmq_loop max_messages expect_eof_frame rest received spool ∧
    zmq_loop max_messages true ((255 :: t) :: rest) received spool =
      (received, spool) := by
  constructor
  · rw [zmq_loop, if_neg h, if_pos (by rfl)]
  · rw [zmq_loop, if_neg h, if_neg (by simp [isSOF]), if_pos (by simp [isEOF])]

/-- Witness for C10: the multi-byte payload [254, 9, 9] is dropped and
the multi-byte payload [255, 9, 9] terminates reception. -/
theorem zmq_first_byte_classification_witness :
    zmq_loop 3 false ([254, 9, 9] :: [[7]]) 0 [] = zmq_loop 3 false [[7]] 0 [] ∧
    zmq_loop 3 true ([255, 9, 9] :: [[7]]) 0 [] = (0, []) := by
  exact zmq_first_byte_classification 3 0 false [] [[7]] [9, 9] (by decide)

/-- A directory entry as seen through std::filesystem::directory_iterator:
a file name (as a byte string) and whether the entry is a regular file. -/
structure DirEntry where
  name : List Nat
  is_regular : Bool
deriving DecidableEq

/-- ASCII decimal digit test, byte codes 48-57. -/
def isDigitByte (c : Nat) : Bool :=
  decide (48 ≤ c) && decide (c ≤ 57)

/-- Anchored match of the regex ^(\d{8}_\d{6}).* used by
get_latest_file_in_directory (data_manager.cpp 130): the name starts
with 8 digits, an underscore (byte 95), and 6 digits. -/
def matches_timestamp (name : List Nat) : Bool :=
  decide (15 ≤ name.length) && (name.take 8).all isDigitByte &&
    ((name.drop 8).take 1 == [95]) && ((name.drop 9).take 6).all isDigitByte

/-- The captured 15-character YYYYMMDD_HHMMSS group, when the name
matches the timestamp regex. -/
def timestamp_of (name : List Nat) : Option (List Nat) :=
  if matches_timestamp name then some (name.take 15) else none

/-- Lexicographic strict order on byte strings, as computed by
operator> on std::string (the code tests timestamp > latest_timestamp,
i.e. lexLt latest_timestamp timestamp). -/
def lexLt : List Nat → List Nat → Bool
  | _, [] => false
  | [], _ :: _ => true
  | a :: as, b :: bs => decide (a < b) || (a == b && lexLt as bs)

lemma lexLt_nil_right (a : List Nat) : lexLt a [] = false := by
  cases a <;> rfl

lemma lexLt_irrefl (a : List Nat) : lexLt a a = false := by
  induction a with
  | nil => rfl
  | cons x xs ih => simp [lexLt, ih]

lemma lexLt_asymm : ∀ a b : List Nat, lexLt a b = true → lexLt b a = false := by
  intro a
  induction a with
  | nil =>
    intro b h
    cases b with
    | nil => cases h
    | cons y ys => exact lexLt_nil_right (y :: ys)
  | cons x xs ih =>
    intro b h
    cases b with
    | nil => rw [lexLt_nil_right] at h; cases h
    | cons y ys =>
      simp only [lexLt, Bool.or_eq_true, Bool.and_eq_true, decide_eq_true_eq,
        beq_iff_eq] at h
      simp only [lexLt, Bool.or_eq_false_iff, Bool.and_eq_false_iff,
        decide_eq_false_iff_not, beq_eq_false_iff_ne]
      rcases h with h | ⟨hxy, hlt⟩
      · exact ⟨by omega, Or.inl (by omega)⟩
      · subst hxy
        exact ⟨by omega, Or.inr (ih ys hlt)⟩

lemma lexLt_false_trans : ∀ c a b : List Nat,
    lexLt a b = false → lexLt b c = false → lexLt a c = false := by
  intro c
  induction c with
  | nil => intro a b _ _; exact lexLt_nil_right a
  | cons z zs ih =>
    intro a b h1 h2
    cases b with
    | nil => cases h2
    | cons y ys =>
      cases a with
      | nil => cases h1
      | cons x xs =>
        simp only [lexLt, Bool.or_eq_false_iff, Bool.and_eq_false_iff,
          decide_eq_false_iff_not, beq_eq_false_iff_ne] at h1 h2 ⊢
        obtain ⟨hxy, h1b⟩ := h1
        obtain ⟨hyz, h2b⟩ := h2
        refine ⟨by omega, ?_⟩
        by_cases hxz : x = z
        · have hxy' : x = y := by omega
          have hyz' : y = z := by omega
          have hxys : lexLt xs ys = false := by
            rcases h1b with h | h
            · exact absurd hxy' h
            · exact h
          have hyzs : lexLt ys zs = false := by
            rcases h2b with h | h
            · exact absurd hyz' h
            · exact h
          exact Or.inr (ih xs ys hxys hyzs)
        · exact Or.inl hxz

/-- The directory scan loop of get_latest_file_in_directory
(data_manager.cpp 131-143): for each regular file whose name matches the
timestamp regex, the captured 15-character prefix is compared with the
best timestamp so far, and on a strictly greater one both accumulators
(best full path dir/name, best timestamp) are replaced. -/
def get_latest_loop (dir : List Nat) :
    List DirEntry → List Nat × List Nat → List Nat × List Nat
  | [], acc => acc
  | e :: rest, acc =>
    if e.is_regular then
      if matches_timestamp e.name then
        if lexLt acc.2 (e.name.take 15) then
          get_latest_loop dir rest (dir ++ 47 :: e.name, e.name.take 15)
        else get_latest_loop dir rest acc
      else get_latest_loop dir rest acc
    else get_latest_loop dir rest acc

/-- get_latest_file_in_directory (data_manager.cpp 123-149) on an
existing directory: runs the scan loop with empty latest_file and
latest_timestamp accumulators and returns the (possibly empty) best
path. 47 is the path separator byte. -/
def get_latest_file_in_directory (dir : List Nat) (entries : List DirEntry) :
    List Nat :=
  (get_latest_loop dir entries ([], [])).1

lemma timestamp_of_eq_some_iff (name u : List Nat) :
    timestamp_of name = some u ↔ matches_timestamp name = true ∧ u = name.take 15 := by
  constructor
  · intro h
    unfold timestamp_of at h
    split at h
    · exact ⟨by assumption, (Option.some.inj h).symm⟩
    · cases h
  · rintro ⟨hm, rfl⟩
    rw [timestamp_of, if_pos hm]

lemma matches_timestamp_length (name : List Nat) (h : matches_timestamp name = true) :
    15 ≤ name.length := by
  unfold matches_timestamp at h
  simp only [Bool.and_eq_true, decide_eq_true_eq] at h
  exact h.1.1.1

lemma lexLt_nil_take15 (name : List Nat) (h : matches_timestamp name = true) :
    lexLt [] (name.take 15) = true := by
  have hlen : 15 ≤ name.length := matches_timestamp_length name h
  cases hn : name.take 15 with
  | nil =>
    exfalso
    have := congrArg List.length hn
    simp only [List.length_take, List.length_nil] at this
    omega
  | cons x xs => rfl

lemma get_latest_loop_spec (dir : List Nat) :
    ∀ (entries : List DirEntry) (acc : List Nat × List Nat),
    (get_latest_loop dir entries acc = acc ∨
      ∃ e, e ∈ entries ∧ e.is_regular = true ∧ matches_timestamp e.name = true ∧
        (get_latest_loop dir entries acc).2 = e.name.take 15 ∧
        (get_latest_loop dir entries acc).1 = dir ++ 47 :: e.name) ∧
    (∀ e, e ∈ entries → e.is_regular = true → matches_timestamp e.name = true →
      lexLt (get_latest_loop dir entries acc).2 (e.name.take 15) = false) ∧
    lexLt (get_latest_loop dir entries acc).2 acc.2 = false := by
  intro entries
  induction entries with
  | nil =>
    intro acc
    refine ⟨Or.inl rfl, ?_, lexLt_irrefl acc.2⟩
    intro e he
    cases he
  | cons e rest ih =>
    intro acc
    by_cases hreg : e.is_regular = true
    · by_cases hmts : matches_timestamp e.name = true
      · by_cases hup : lexLt acc.2 (e.name.take 15) = true
        · have hstep : get_latest_loop dir (e :: rest) acc =
              get_latest_loop dir rest (dir ++ 47 :: e.name, e.name.take 15) := by
            rw [get_latest_loop, if_pos hreg, if_pos hmts, if_pos hup]
          obtain ⟨ha, hb, hc⟩ := ih (dir ++ 47 :: e.name, e.name.take 15)
          rw [hstep]
          refine ⟨?_, ?_, ?_⟩
          · rcases ha with ha | ⟨e', he', h1, h2, h3, h4⟩
            · exact Or.inr ⟨e, List.mem_cons_self e rest, hreg, hmts,
                by rw [ha], by rw [ha]⟩
            · exact Or.inr ⟨e', List.mem_cons_of_mem e he', h1, h2, h3, h4⟩
          · intro e'' he'' hr hm
            rcases List.mem_cons.1 he'' with he'' | he''
            · subst he''
              exact hc
            · exact hb e'' he'' hr hm
          · exact lexLt_false_trans acc.2 _ (e.name.take 15) hc
              (lexLt_asymm acc.2 (e.name.take 15) hup)
        · have hup' : lexLt acc.2 (e.name.take 15) = false :=
            Bool.eq_false_iff.mpr hup
          have hstep : get_latest_loop dir (e :: rest) acc =
              get_latest_loop dir rest acc := by
            rw [get_latest_loop, if_pos hreg, if_pos hmts, if_neg hup]
          obtain ⟨ha, hb, hc⟩ := ih acc
          rw [hstep]
          refine ⟨?_, ?_, hc⟩
          · rcases ha with ha | ⟨e', he', h1, h2, h3, h4⟩
            · exact Or.inl ha
            · exact Or.inr ⟨e', List.mem_cons_of_mem e he', h1, h2, h3, h4⟩
          · intro e'' he'' hr hm
            rcases List.mem_cons.1 he'' with he'' | he''
            · subst he''
              exact lexLt_false_trans (e''.name.take 15) _ acc.2 hc hup'
            · exact hb e'' he'' hr hm
      · have hstep : get_latest_loop dir (e :: rest) acc =
            get_latest_loop dir rest acc := by
          rw [get_latest_loop, if_pos hreg, if_neg hmts]
        obtain ⟨ha, hb, hc⟩ := ih acc
        rw [hstep]
        refine ⟨?_, ?_, hc⟩
        · rcases ha with ha | ⟨e', he', h1, h2, h3, h4⟩
          · exact Or.inl ha
          · exact Or.inr ⟨e', List.mem_cons_of_mem e he', h1, h2, h3, h4⟩
        · intro e'' he'' hr hm
          rcases List.mem_cons.1 he'' with he'' | he''
          · subst he''
            exact absurd hm hmts
          · exact hb e'' he'' hr hm
    · have hstep : get_latest_loop dir (e :: rest) acc =
          get_latest_loop dir rest acc := by
        rw [get_latest_loop, if_neg hreg]
      obtain ⟨ha, hb, hc⟩ := ih acc
      rw [hstep]
      refine ⟨?_, ?_, hc⟩
      · rcases ha with ha | ⟨e', he', h1, h2, h3, h4⟩
        · exact Or.inl ha
        · exact Or.inr ⟨e', List.mem_cons_of_mem e he', h1, h2, h3, h4⟩
      · intro e'' he'' hr hm
        rcases List.mem_cons.1 he'' with he'' | he''
        · subst he''
          exact absurd hr hreg
        · exact hb e'' he'' hr hm

/-- Claim C9: on any directory, get_latest_file_in_directory never
selects a file whose name lacks a leading YYYYMMDD_HHMMSS prefix (when
no regular file matches, it returns the empty path), and whenever some
regular file matches, the returned path names a matching regular file
whose 15-character timestamp prefix is a lexicographic maximum among
the timestamp prefixes of all matching regular files in the directory. -/
theorem get_latest_file_spec (dir : List Nat) (entries : List DirEntry) :
    ((∀ e ∈ entries, e.is_regular = true → timestamp_of e.name = none) →
      get_latest_file_in_directory dir entries = []) ∧
    (∀ e₀ ∈ entries, ∀ u₀, e₀.is_regular = true → timestamp_of e₀.name = some u₀ →
      ∃ e ∈ entries, ∃ u, e.is_regular = true ∧ timestamp_of e.name = some u ∧
        get_latest_file_in_directory dir entries = dir ++ 47 :: e.name ∧
        ∀ e' ∈ entries, ∀ u', e'.is_regular = true → timestamp_of e'.name = some u' →
          lexLt u u' = false) := by
  obtain ⟨ha, hb, _⟩ := get_latest_loop_spec dir entries ([], [])
  constructor
  · intro hnone
    rcases ha with ha | ⟨e', he', h1, h2, _, _⟩
    · unfold get_latest_file_in_directory
      rw [ha]
    · have := hnone e' he' h1
      rw [(timestamp_of_eq_some_iff e'.name (e'.name.take 15)).2 ⟨h2, rfl⟩] at this
      cases this
  · intro e₀ he₀ u₀ hreg₀ hts₀
    obtain ⟨hm₀, hu₀⟩ := (timestamp_of_eq_some_iff e₀.name u₀).1 hts₀
    rcases ha with ha | ⟨e', he', h1, h2, h3, h4⟩
    · exfalso
      have hmax := hb e₀ he₀ hreg₀ hm₀
      rw [ha] at hmax
      rw [lexLt_nil_take15 e₀.name hm₀] at hmax
      cases hmax
    · refine ⟨e', he', e'.name.take 15, h1,
        (timestamp_of_eq_some_iff e'.name (e'.name.take 15)).2 ⟨h2, rfl⟩,
        by unfold get_latest_file_in_directory; rw [h4], ?_⟩
      intro e'' he'' u'' hr'' hts''
      obtain ⟨hm'', hu''⟩ := (timestamp_of_eq_some_iff e''.name u'').1 hts''
      subst hu''
      have := hb e'' he'' hr'' hm''
      rw [h3] at this
      exact this

/-- Entries for the C9 witness: one regular file named
20240101_000000 (byte codes) and one regular file named x. -/
def sample_entry_a : DirEntry :=
  DirEntry.mk [50, 48, 50, 52, 48, 49, 48, 49, 95, 48, 48, 48, 48, 48, 48] true

def sample_entry_b : DirEntry :=
  DirEntry.mk [120] true

/-- Witness for C9 on a concrete directory with one matching and one
non-matching regular file. -/
theorem get_latest_file_spec_witness :
    ∃ e ∈ [sample_entry_a, sample_entry_b], ∃ u, e.is_regular = true ∧
      timestamp_of e.name = some u ∧
      get_latest_file_in_directory [100] [sample_entry_a, sample_entry_b] =
        [100] ++ 47 :: e.name ∧
      ∀ e' ∈ [sample_entry_a, sample_entry_b], ∀ u', e'.is_regular = true →
        timestamp_of e'.name = some u' → lexLt u u' = false := by
  exact (get_latest_file_spec [100] [sample_entry_a, sample_entry_b]).2
    sample_entry_a (by decide) sample_entry_a.name (by decide) (by decide)
